import Mathlib

/-!
Verification development for the camo-rs request pipeline.

Rust values are modelled shallowly:
* Rust `String` / `&str` become Lean `String`; their UTF-8 byte view is
  `utf8Encode`, and `String::from_utf8` is `utf8DecodeString`.
* byte buffers (`Vec<u8>`, `&[u8]`) become `List Nat` with every element a
  byte value (`< 256`);
* 32-bit words in SHA-1 are `Nat` reduced with `% 2^32` at every operation;
* fallible operations return `Option` / `Except`.

Each definition is translated from the corresponding function of the
repository (file and symbol named in its doc comment); library functions
from external crates (`hex`, `base64`, `urlencoding`, `hmac`/`sha1`) are
modelled from their documented behaviour at the version the crate pins.
-/

namespace Camo

/-! ## UTF-8 (Rust `String::from_utf8` / `str::as_bytes`) -/

/-- Encoding of one Unicode scalar value to UTF-8 bytes (standard UTF-8,
as produced by Rust `str::as_bytes` for each `char`). -/
def utf8EncodeChar (c : Nat) : List Nat :=
  if c < 0x80 then [c]
  else if c < 0x800 then [0xC0 + c / 64, 0x80 + c % 64]
  else if c < 0x10000 then [0xE0 + c / 4096, 0x80 + c / 64 % 64, 0x80 + c % 64]
  else [0xF0 + c / 262144, 0x80 + c / 4096 % 64, 0x80 + c / 64 % 64, 0x80 + c % 64]

/-- UTF-8 byte view of a string (Rust `str::as_bytes`). -/
def utf8Encode (s : String) : List Nat :=
  s.data.flatMap fun c => utf8EncodeChar c.toNat

/-- One step of strict UTF-8 decoding: the scalar value encoded at the
head of the byte list and the remaining bytes, with exactly the
byte-sequence validation Rust `String::from_utf8` performs: continuation
bytes must be `80..BF`, overlong forms, surrogates (`ED A0..` forms) and
code points above `10FFFF` (`F5..FF` leads, `F4 90..` forms) are
rejected. -/
def utf8Step : List Nat → Option (Nat × List Nat)
  | [] => none
  | b :: rest =>
    if b < 0x80 then
      some (b, rest)
    else if b < 0xC2 then none
    else if b < 0xE0 then
      match rest with
      | b1 :: rest1 =>
        if 0x80 ≤ b1 ∧ b1 < 0xC0 then
          some ((b - 0xC0) * 64 + (b1 - 0x80), rest1)
        else none
      | [] => none
    else if b < 0xF0 then
      match rest with
      | b1 :: b2 :: rest2 =>
        if (if b = 0xE0 then 0xA0 else 0x80) ≤ b1 ∧ b1 < (if b = 0xED then 0xA0 else 0xC0) ∧
            0x80 ≤ b2 ∧ b2 < 0xC0 then
          some ((b - 0xE0) * 4096 + (b1 - 0x80) * 64 + (b2 - 0x80), rest2)
        else none
      | _ => none
    else if b < 0xF5 then
      match rest with
      | b1 :: b2 :: b3 :: rest3 =>
        if (if b = 0xF0 then 0x90 else 0x80) ≤ b1 ∧ b1 < (if b = 0xF4 then 0x90 else 0xC0) ∧
            0x80 ≤ b2 ∧ b2 < 0xC0 ∧ 0x80 ≤ b3 ∧ b3 < 0xC0 then
          some ((b - 0xF0) * 262144 + (b1 - 0x80) * 4096 + (b2 - 0x80) * 64 + (b3 - 0x80), rest3)
        else none
      | _ => none
    else none

/-- Iterate `utf8Step`; the fuel only bounds the number of scalars and is
always sufficient when it is at least the byte length, since every step
consumes at least one byte. -/
def utf8DecodeLoop : Nat → List Nat → Option (List Nat)
  | _, [] => some []
  | 0, _ :: _ => none
  | fuel + 1, b :: rest =>
    match utf8Step (b :: rest) with
    | some (c, rest1) => (utf8DecodeLoop fuel rest1).map (c :: ·)
    | none => none

/-- Strict UTF-8 decoding of a byte list to its list of Unicode scalar
values (Rust `String::from_utf8` acceptance). -/
def utf8DecodeCps (l : List Nat) : Option (List Nat) :=
  utf8DecodeLoop l.length l

/-- Rust `String::from_utf8`: succeeds exactly when the bytes are valid
UTF-8, returning the decoded string. -/
def utf8DecodeString (l : List Nat) : Option String :=
  (utf8DecodeCps l).map fun cps => String.mk (cps.map Char.ofNat)

/-! ## Hex (crate `hex`: `hex::encode`, `hex::decode`) -/

/-- Lowercase hex digit for a nibble (`hex::encode` output alphabet). -/
def hexDigit (x : Nat) : Nat :=
  if x < 10 then 48 + x else 87 + x

/-- Byte pair to lowercase hex, `hex::encode` on a byte list, as byte values. -/
def hexEncodeBytes : List Nat → List Nat
  | [] => []
  | b :: rest => hexDigit (b / 16 % 16) :: hexDigit (b % 16) :: hexEncodeBytes rest

/-- Value of an ASCII hex digit byte, accepting both cases (`hex` crate). -/
def hexVal (b : Nat) : Option Nat :=
  if 48 ≤ b ∧ b ≤ 57 then some (b - 48)
  else if 97 ≤ b ∧ b ≤ 102 then some (b - 87)
  else if 65 ≤ b ∧ b ≤ 70 then some (b - 55)
  else none

/-- Rust `hex::decode` on the byte view of the input: requires even length
and every byte an ASCII hex digit. -/
def hexDecodeBytes : List Nat → Option (List Nat)
  | [] => some []
  | [_] => none
  | b0 :: b1 :: rest =>
    match hexVal b0, hexVal b1 with
    | some v0, some v1 => (hexDecodeBytes rest).map ((v0 * 16 + v1) :: ·)
    | _, _ => none

/-! ## URL-safe base64 without padding
(crate `base64`, engine `general_purpose::URL_SAFE_NO_PAD`) -/

/-- URL-safe base64 alphabet: index 0-63 to ASCII byte. -/
def b64Char (i : Nat) : Nat :=
  if i < 26 then 65 + i
  else if i < 52 then 71 + i
  else if i < 62 then i - 4
  else if i = 62 then 45
  else 95

/-- Index of an ASCII byte in the URL-safe base64 alphabet. -/
def b64Val (b : Nat) : Option Nat :=
  if 65 ≤ b ∧ b ≤ 90 then some (b - 65)
  else if 97 ≤ b ∧ b ≤ 122 then some (b - 71)
  else if 48 ≤ b ∧ b ≤ 57 then some (b + 4)
  else if b = 45 then some 62
  else if b = 95 then some 63
  else none

/-- Unpadded URL-safe base64 encoding of a byte list
(`URL_SAFE_NO_PAD.encode`), as ASCII byte values. -/
def b64EncodeBytes : List Nat → List Nat
  | [] => []
  | [a] => [b64Char (a / 4 % 64), b64Char (a % 4 * 16)]
  | [a, b] => [b64Char (a / 4 % 64), b64Char (a % 4 * 16 + b / 16 % 16), b64Char (b % 16 * 4)]
  | a :: b :: c :: rest =>
    b64Char (a / 4 % 64) :: b64Char (a % 4 * 16 + b / 16 % 16) ::
    b64Char (b % 16 * 4 + c / 64 % 4) :: b64Char (c % 64) :: b64EncodeBytes rest

/-- Unpadded URL-safe base64 decoding (`URL_SAFE_NO_PAD.decode`): rejects
characters outside the alphabet (including `=` padding), inputs of length
`≡ 1 (mod 4)`, and non-zero trailing bits in a final partial group
(the engine's default `decode_allow_trailing_bits = false`). -/
def b64DecodeBytes : List Nat → Option (List Nat)
  | [] => some []
  | [_] => none
  | [c0, c1] =>
    match b64Val c0, b64Val c1 with
    | some v0, some v1 => if v1 % 16 = 0 then some [v0 * 4 + v1 / 16] else none
    | _, _ => none
  | [c0, c1, c2] =>
    match b64Val c0, b64Val c1, b64Val c2 with
    | some v0, some v1, some v2 =>
      if v2 % 4 = 0 then some [v0 * 4 + v1 / 16, v1 % 16 * 16 + v2 / 4] else none
    | _, _, _ => none
  | c0 :: c1 :: c2 :: c3 :: rest =>
    match b64Val c0, b64Val c1, b64Val c2, b64Val c3 with
    | some v0, some v1, some v2, some v3 =>
      (b64DecodeBytes rest).map
        ((v0 * 4 + v1 / 16) :: (v1 % 16 * 16 + v2 / 4) :: (v2 % 4 * 64 + v3) :: ·)
    | _, _, _, _ => none

/-! ## Percent decoding (crate `urlencoding`, `urlencoding::decode`) -/

/-- Percent decoding on bytes (`urlencoding::decode_binary`): each `%`
followed by two hex digits becomes the denoted byte; a `%` not followed by
two hex digits is kept literally and scanning continues after it. -/
def percentDecodeBytes : List Nat → List Nat
  | [] => []
  | 37 :: h0 :: h1 :: rest =>
    match hexVal h0, hexVal h1 with
    | some v0, some v1 => (v0 * 16 + v1) :: percentDecodeBytes rest
    | _, _ => 37 :: percentDecodeBytes (h0 :: h1 :: rest)
  | b :: rest => b :: percentDecodeBytes rest

/-- Rust `urlencoding::decode` on a `&str`: if the input has no `%` it is
returned unchanged (borrowed), otherwise the percent-decoded bytes must be
valid UTF-8. -/
def percentDecodeStr (s : String) : Option String :=
  if (utf8Encode s).contains 37 then
    utf8DecodeString (percentDecodeBytes (utf8Encode s))
  else
    some s

/-! ## URL token encoding (`src/encoding.rs`) -/

/-- Translation of `decode_url` (src/encoding.rs): try hex, then URL-safe
unpadded base64, then percent decoding; each of the first two attempts is
accepted only if the decoded bytes are valid UTF-8. -/
def decode_url (encoded : String) : Option String :=
  match (hexDecodeBytes (utf8Encode encoded)).bind utf8DecodeString with
  | some s => some s
  | none =>
    match (b64DecodeBytes (utf8Encode encoded)).bind utf8DecodeString with
    | some s => some s
    | none => percentDecodeStr encoded

/-- Translation of `encode_url_hex` (src/encoding.rs): lowercase hex of the
URL's UTF-8 bytes, returned as a string. -/
def encode_url_hex (url : String) : String :=
  String.mk ((hexEncodeBytes (utf8Encode url)).map Char.ofNat)

/-- Translation of `encode_url_base64` (src/encoding.rs): URL-safe unpadded
base64 of the URL's UTF-8 bytes, returned as a string. -/
def encode_url_base64 (url : String) : String :=
  String.mk ((b64EncodeBytes (utf8Encode url)).map Char.ofNat)

/-! ## SHA-1 and HMAC-SHA1 (crates `sha1`, `hmac`; FIPS 180-4 / RFC 2104)
32-bit words are `Nat` values kept below `2^32` by reducing `% 2^32`. -/

/-- Left rotation of a 32-bit word by `k` bits. -/
def rotl (k x : Nat) : Nat := (x * 2 ^ k + x / 2 ^ (32 - k)) % 4294967296

/-- Big-endian 32-bit word from four bytes. -/
def wordOfBytes (a b c d : Nat) : Nat := ((a * 256 + b) * 256 + c) * 256 + d

/-- Big-endian byte decomposition of a 32-bit word. -/
def bytesOfWord (w : Nat) : List Nat :=
  [w / 16777216 % 256, w / 65536 % 256, w / 256 % 256, w % 256]

/-- SHA-1 message padding: append `0x80`, zero bytes to reach 56 mod 64,
then the bit length as a big-endian 64-bit integer. -/
def sha1Pad (msg : List Nat) : List Nat :=
  let bitLen := msg.length * 8
  msg ++ 0x80 :: List.replicate ((55 + 64 - msg.length % 64) % 64) 0 ++
    [bitLen / 2 ^ 56 % 256, bitLen / 2 ^ 48 % 256, bitLen / 2 ^ 40 % 256,
     bitLen / 2 ^ 32 % 256, bitLen / 2 ^ 24 % 256, bitLen / 2 ^ 16 % 256,
     bitLen / 2 ^ 8 % 256, bitLen % 256]

/-- Group a byte list into big-endian 32-bit words (ignoring a trailing
incomplete group, which never occurs on 64-byte blocks). -/
def toWords : List Nat → List Nat
  | a :: b :: c :: d :: rest => wordOfBytes a b c d :: toWords rest
  | _ => []

/-- Message-schedule extension: prepend `k` additional words to the
reversed word list, each `rotl 1` of the xor of the words 3, 8, 14 and 16
positions back. -/
def extendWords : Nat → List Nat → List Nat
  | 0, acc => acc
  | k + 1, acc =>
    extendWords k
      (rotl 1 ((acc.getD 2 0) ^^^ (acc.getD 7 0) ^^^ (acc.getD 13 0) ^^^ (acc.getD 15 0)) :: acc)

/-- One SHA-1 round: state update for round index `i` with schedule word `w`. -/
def sha1Round (st : Nat × Nat × Nat × Nat × Nat) (iw : Nat × Nat) :
    Nat × Nat × Nat × Nat × Nat :=
  match st, iw with
  | (a, b, c, d, e), (i, w) =>
    let f :=
      if i < 20 then (b &&& c) ||| ((4294967295 - b) &&& d)
      else if i < 40 then b ^^^ c ^^^ d
      else if i < 60 then (b &&& c) ||| (b &&& d) ||| (c &&& d)
      else b ^^^ c ^^^ d
    let k :=
      if i < 20 then 0x5A827999
      else if i < 40 then 0x6ED9EBA1
      else if i < 60 then 0x8F1BBCDC
      else 0xCA62C1D6
    ((rotl 5 a + f + e + k + w) % 4294967296, a, rotl 30 b, c, d)

/-- SHA-1 compression of one 64-byte block into the running state. -/
def sha1Compress (h : Nat × Nat × Nat × Nat × Nat) (block : List Nat) :
    Nat × Nat × Nat × Nat × Nat :=
  let ws := (extendWords 64 (toWords block).reverse).reverse
  match h, ((List.range 80).zip ws).foldl sha1Round h with
  | (h0, h1, h2, h3, h4), (a, b, c, d, e) =>
    ((h0 + a) % 4294967296, (h1 + b) % 4294967296, (h2 + c) % 4294967296,
     (h3 + d) % 4294967296, (h4 + e) % 4294967296)

/-- Fold SHA-1 compression over consecutive 64-byte blocks. -/
def sha1Blocks (st : Nat × Nat × Nat × Nat × Nat) : List Nat → Nat × Nat × Nat × Nat × Nat
  | [] => st
  | b :: rest =>
    sha1Blocks (sha1Compress st ((b :: rest).take 64)) ((b :: rest).drop 64)
  termination_by l => l.length
  decreasing_by simp [List.length_drop]; omega

/-- SHA-1 digest (20 bytes) of a byte list. -/
def sha1 (msg : List Nat) : List Nat :=
  match sha1Blocks (0x67452301, 0xEFCDAB89, 0x98BADCFE, 0x10325476, 0xC3D2E1F0)
      (sha1Pad msg) with
  | (h0, h1, h2, h3, h4) =>
    bytesOfWord h0 ++ bytesOfWord h1 ++ bytesOfWord h2 ++ bytesOfWord h3 ++ bytesOfWord h4

/-- HMAC-SHA1 (RFC 2104, block size 64): the `Hmac::<Sha1>` construction
used by `generate_digest`; a key longer than 64 bytes is first hashed,
then zero-padded to 64 bytes. -/
def hmacSha1 (key msg : List Nat) : List Nat :=
  let k0 := if 64 < key.length then sha1 key else key
  let k := k0 ++ List.replicate (64 - k0.length) 0
  sha1 ((k.map fun b => b ^^^ 0x5C) ++ sha1 ((k.map fun b => b ^^^ 0x36) ++ msg))

/-- Translation of `generate_digest` (src/utils/crypto.rs): HMAC-SHA1 of
the URL bytes under the key bytes, encoded as lowercase hex. -/
def generate_digest (key url : String) : String :=
  String.mk ((hexEncodeBytes (hmacSha1 (utf8Encode key) (utf8Encode url))).map Char.ofNat)

/-- Translation of `constant_time_eq` (src/utils/crypto.rs): length check,
then an or-accumulated xor over the zipped bytes. -/
def constant_time_eq (a b : List Nat) : Bool :=
  if a.length ≠ b.length then false
  else ((a.zip b).foldl (fun r p => r ||| (p.1 ^^^ p.2)) 0) == 0

/-- Translation of `verify_digest` (src/utils/crypto.rs): recompute the
expected digest and compare its bytes with the candidate's bytes. -/
def verify_digest (key url digest : String) : Bool :=
  constant_time_eq (utf8Encode (generate_digest key url)) (utf8Encode digest)

/-! ## Configuration (src/config.rs `Cli`, src/server/config.rs `Config`) -/

/-- Configuration fields consumed by the pipeline (src/config.rs `Cli`;
CLI/environment parsing is glue outside the model). -/
structure Cli where
  key : Option String
  max_size : Nat
  max_redirects : Nat
  timeout : Nat
  allow_video : Bool
  allow_audio : Bool
  block_private : Bool
  metrics : Bool

/-- Worker-side configuration (src/server/config.rs `Config`): same
pipeline-relevant fields. -/
structure Config where
  key : Option String
  max_size : Nat
  max_redirects : Nat
  timeout : Nat
  allow_video : Bool
  allow_audio : Bool
  block_private : Bool
  metrics : Bool

/-- Translation of `IMAGE_TYPES` (src/server/content_types.rs). -/
def IMAGE_TYPES : List String :=
  ["image/bmp", "image/cgm", "image/g3fax", "image/gif", "image/ief", "image/jp2",
   "image/jpeg", "image/jpg", "image/pict", "image/png", "image/prs.btif",
   "image/svg+xml", "image/tiff", "image/vnd.adobe.photoshop", "image/vnd.djvu",
   "image/vnd.dwg", "image/vnd.dxf", "image/vnd.fastbidsheet", "image/vnd.fpx",
   "image/vnd.fst", "image/vnd.fujixerox.edmics-mmr", "image/vnd.fujixerox.edmics-rlc",
   "image/vnd.microsoft.icon", "image/vnd.ms-modi", "image/vnd.net-fpx",
   "image/vnd.wap.wbmp", "image/vnd.xiff", "image/webp", "image/avif", "image/heic",
   "image/heif", "image/x-cmu-raster", "image/x-cmx", "image/x-icon",
   "image/x-macpaint", "image/x-pcx", "image/x-pict", "image/x-portable-anymap",
   "image/x-portable-bitmap", "image/x-portable-graymap", "image/x-portable-pixmap",
   "image/x-quicktime", "image/x-rgb", "image/x-xbitmap", "image/x-xpixmap",
   "image/x-xwindowdump"]

/-- Translation of `VIDEO_TYPES` (src/server/content_types.rs). -/
def VIDEO_TYPES : List String :=
  ["video/mp4", "video/webm", "video/ogg", "video/quicktime", "video/x-msvideo"]

/-- Translation of `AUDIO_TYPES` (src/server/content_types.rs). -/
def AUDIO_TYPES : List String :=
  ["audio/mpeg", "audio/ogg", "audio/wav", "audio/webm", "audio/flac"]

/-- Image list written inline in `Cli::allowed_content_types`
(src/config.rs, in its order there: avif/heic/heif listed last). -/
def CLI_IMAGE_TYPES : List String :=
  ["image/bmp", "image/cgm", "image/g3fax", "image/gif", "image/ief", "image/jp2",
   "image/jpeg", "image/jpg", "image/pict", "image/png", "image/prs.btif",
   "image/svg+xml", "image/tiff", "image/vnd.adobe.photoshop", "image/vnd.djvu",
   "image/vnd.dwg", "image/vnd.dxf", "image/vnd.fastbidsheet", "image/vnd.fpx",
   "image/vnd.fst", "image/vnd.fujixerox.edmics-mmr", "image/vnd.fujixerox.edmics-rlc",
   "image/vnd.microsoft.icon", "image/vnd.ms-modi", "image/vnd.net-fpx",
   "image/vnd.wap.wbmp", "image/vnd.xiff", "image/webp", "image/x-cmu-raster",
   "image/x-cmx", "image/x-icon", "image/x-macpaint", "image/x-pcx", "image/x-pict",
   "image/x-portable-anymap", "image/x-portable-bitmap", "image/x-portable-graymap",
   "image/x-portable-pixmap", "image/x-quicktime", "image/x-rgb", "image/x-xbitmap",
   "image/x-xpixmap", "image/x-xwindowdump", "image/avif", "image/heic", "image/heif"]

/-- Translation of `Cli::allowed_content_types` (src/config.rs): the
inline image list, extended by the video and audio lists when the
corresponding flag is set. -/
def Cli.allowed_content_types (c : Cli) : List String :=
  (CLI_IMAGE_TYPES
    ++ (if c.allow_video then
          ["video/mp4", "video/webm", "video/ogg", "video/quicktime", "video/x-msvideo"]
        else []))
    ++ (if c.allow_audio then
          ["audio/mpeg", "audio/ogg", "audio/wav", "audio/webm", "audio/flac"]
        else [])

/-- Translation of `Config::allowed_content_types` (src/server/config.rs):
image types always, then video and audio when enabled. -/
def Config.allowed_content_types (c : Config) : List String :=
  (IMAGE_TYPES ++ (if c.allow_video then VIDEO_TYPES else []))
    ++ (if c.allow_audio then AUDIO_TYPES else [])

/-- ASCII lowercasing of one character. Rust `str::to_lowercase` performs
Unicode lowercasing; on ASCII input (every comparison target in the
policy sets is pure ASCII) it coincides with this map. -/
def charLowerAscii (c : Char) : Char :=
  if 65 ≤ c.toNat ∧ c.toNat ≤ 90 then Char.ofNat (c.toNat + 32) else c

/-- Model of Rust `str::to_lowercase` restricted to ASCII lowering. -/
def rustToLower (s : String) : String :=
  String.mk (s.data.map charLowerAscii)

/-- Rust `char::is_whitespace` restricted to its ASCII members
(tab, LF, VT, FF, CR, space), as used by `str::trim`. -/
def isRustWsAscii (c : Char) : Bool :=
  (9 ≤ c.toNat ∧ c.toNat ≤ 13) ∨ c.toNat = 32

/-- Model of Rust `str::trim` (ASCII whitespace). -/
def rustTrim (s : String) : String :=
  String.mk (((s.data.dropWhile isRustWsAscii).reverse.dropWhile isRustWsAscii).reverse)

/-- Shared body of both `is_allowed_content_type` functions: lower-case,
keep everything before the first `;`, trim. -/
def mimeOf (content_type : String) : String :=
  rustTrim (String.mk ((rustToLower content_type).data.takeWhile (· ≠ ';')))

/-- Translation of `ProxyClient::is_allowed_content_type` (src/proxy.rs):
membership of the processed MIME type in `Cli::allowed_content_types`. -/
def ProxyClient.is_allowed_content_type (cfg : Cli) (content_type : String) : Bool :=
  cfg.allowed_content_types.any (· = mimeOf content_type)

/-- Translation of `Config::is_allowed_content_type`
(src/server/config.rs): same processing against
`Config::allowed_content_types`. -/
def Config.is_allowed_content_type (cfg : Config) (content_type : String) : Bool :=
  cfg.allowed_content_types.any (· = mimeOf content_type)

/-! ## Network guard (src/proxy.rs `is_private_ip`) -/

/-- IPv4 address as four octets. -/
structure Ipv4 where
  a : Nat
  b : Nat
  c : Nat
  d : Nat
deriving DecidableEq

/-- IP address: IPv4 octets or IPv6 as eight 16-bit segments. -/
inductive IpAddr where
  | v4 (ip : Ipv4)
  | v6 (segments : List Nat)
deriving DecidableEq

/-- Rust `Ipv4Addr::is_private`: 10/8, 172.16/12, 192.168/16. -/
def ipv4Private (ip : Ipv4) : Bool :=
  ip.a = 10 ∨ (ip.a = 172 ∧ 16 ≤ ip.b ∧ ip.b ≤ 31) ∨ (ip.a = 192 ∧ ip.b = 168)

/-- Rust `Ipv4Addr::is_documentation`: 192.0.2/24, 198.51.100/24,
203.0.113/24. -/
def ipv4Docs (ip : Ipv4) : Bool :=
  (ip.a = 192 ∧ ip.b = 0 ∧ ip.c = 2) ∨ (ip.a = 198 ∧ ip.b = 51 ∧ ip.c = 100) ∨
    (ip.a = 203 ∧ ip.b = 0 ∧ ip.c = 113)

/-- Translation of `is_private_ip` (src/proxy.rs): the std range
predicates in source order plus the explicit carrier-grade NAT test
`octets[0] == 100 && (octets[1] & 0xC0) == 64`; for IPv6 only loopback
and unspecified. -/
def is_private_ip (ip : IpAddr) : Bool :=
  match ip with
  | .v4 ip =>
    ipv4Private ip ∨ ip.a = 127 ∨ (ip.a = 169 ∧ ip.b = 254) ∨
      (ip.a = 255 ∧ ip.b = 255 ∧ ip.c = 255 ∧ ip.d = 255) ∨ ipv4Docs ip ∨
      (ip.a = 0 ∧ ip.b = 0 ∧ ip.c = 0 ∧ ip.d = 0) ∨
      (ip.a = 100 ∧ ip.b &&& 0xC0 = 64)
  | .v6 segments =>
    segments = [0, 0, 0, 0, 0, 0, 0, 1] ∨ segments = [0, 0, 0, 0, 0, 0, 0, 0]

/-- Address ranges enumerated by claim C2: loopback 127/8, 10/8,
link-local 169.254/16, carrier-grade NAT 100.64/10, the other private
ranges 172.16/12 and 192.168/16, broadcast, the documentation ranges,
unspecified, and IPv6 loopback/unspecified. -/
def claimPrivateRange : IpAddr → Prop
  | .v4 ip =>
    ip.a = 127 ∨ ip.a = 10 ∨ (ip.a = 169 ∧ ip.b = 254) ∨
      (ip.a = 100 ∧ 64 ≤ ip.b ∧ ip.b ≤ 127) ∨ (ip.a = 172 ∧ 16 ≤ ip.b ∧ ip.b ≤ 31) ∨
      (ip.a = 192 ∧ ip.b = 168) ∨ (ip.a = 255 ∧ ip.b = 255 ∧ ip.c = 255 ∧ ip.d = 255) ∨
      (ip.a = 192 ∧ ip.b = 0 ∧ ip.c = 2) ∨ (ip.a = 198 ∧ ip.b = 51 ∧ ip.c = 100) ∨
      (ip.a = 203 ∧ ip.b = 0 ∧ ip.c = 113) ∨ (ip.a = 0 ∧ ip.b = 0 ∧ ip.c = 0 ∧ ip.d = 0)
  | .v6 segments => segments = [0, 0, 0, 0, 0, 0, 0, 1] ∨ segments = [0, 0, 0, 0, 0, 0, 0, 0]

/-! ## Errors (src/error.rs) -/

/-- Model of `reqwest::Error` restricted to what the pipeline can observe:
whether the error was a timeout (`is_timeout`). -/
structure ReqwestError where
  timedOut : Bool
deriving DecidableEq

/-- Translation of `CamoError` (src/error.rs). -/
inductive CamoError where
  | InvalidDigest
  | InvalidUrlEncoding
  | InvalidUrl (msg : String)
  | DigestMismatch
  | ContentTypeNotAllowed (ct : String)
  | ContentTooLarge (n : Nat)
  | TooManyRedirects
  | Timeout
  | Upstream (e : ReqwestError)
  | PrivateNetworkNotAllowed
deriving DecidableEq

/-- Translation of `impl IntoResponse for CamoError` (src/error.rs): the
HTTP status code each error kind maps to. -/
def statusCode : CamoError → Nat
  | .InvalidDigest => 400
  | .InvalidUrlEncoding => 400
  | .InvalidUrl _ => 400
  | .DigestMismatch => 400
  | .ContentTypeNotAllowed _ => 415
  | .ContentTooLarge _ => 413
  | .TooManyRedirects => 502
  | .Timeout => 504
  | .Upstream _ => 502
  | .PrivateNetworkNotAllowed => 403

/-- Translation of the `#[from] reqwest::Error` conversion on
`CamoError::Upstream` (src/error.rs), applied by the `?` operator at the
`send()` call in `ProxyClient::proxy`: every reqwest error, timeouts
included, becomes `Upstream`. -/
def camoErrorFromReqwest (e : ReqwestError) : CamoError :=
  CamoError.Upstream e

/-- Modelled from the spec: `src/server/error.rs` is not under `src/`;
its `CamoError` is reconstructed from its uses in
src/server/http_client/worker_impl.rs and src/server/router.rs (variants
constructed there, with `Upstream` carrying the stringified source error)
and the spec's §7 failure taxonomy. -/
inductive WCamoError where
  | InvalidDigest
  | InvalidUrlEncoding
  | InvalidUrl (msg : String)
  | DigestMismatch
  | ContentTypeNotAllowed (ct : String)
  | ContentTooLarge (n : Nat)
  | TooManyRedirects
  | Timeout
  | Upstream (msg : String)
  | PrivateNetworkNotAllowed
deriving DecidableEq

/-! ## Upstream responses and the two fetch pipelines -/

/-- Upstream HTTP response as the pipeline observes it: a header multimap
view (names already lowercased, as in the `http` crate's `HeaderMap`) and
the body as the list of chunks the stream yields. -/
structure UpstreamResponse where
  headers : List (String × String)
  bodyChunks : List (List Nat)

/-- First header value for a name (`HeaderMap::get`). -/
def headerGet (r : UpstreamResponse) (name : String) : Option String :=
  (r.headers.find? (fun p => p.1 = name)).map (·.2)

/-- Rust `str::parse::<u64>`: an optional leading `+`, then one or more
ASCII digits (overflow is unmodelled: `Nat` is unbounded). -/
def parseU64 (s : String) : Option Nat :=
  let ds := match s.data with
    | '+' :: rest => rest
    | l => l
  if ds = [] then none
  else if ds.all fun c => 48 ≤ c.toNat ∧ c.toNat ≤ 57 then
    some (ds.foldl (fun acc c => acc * 10 + (c.toNat - 48)) 0)
  else none

/-- Declared content length: the parsed `content-length` header
(reqwest `Response::content_length`, worker-side `str::parse::<u64>`). -/
def declaredContentLength (r : UpstreamResponse) : Option Nat :=
  (headerGet r "content-length").bind parseU64

/-- Relayed response of the native proxy (src/proxy.rs `ProxyResponse`):
built headers plus the body stream, which `proxy` forwards unchanged. -/
structure ProxyResponse where
  headers : List (String × String)
  body : List (List Nat)

/-- Header construction of `ProxyClient::proxy` (src/proxy.rs lines
61-92): copy content-type, content-length, cache-control, etag,
last-modified verbatim when present, then append the two fixed security
headers. -/
def buildNativeHeaders (r : UpstreamResponse) : List (String × String) :=
  ((headerGet r "content-type").map fun v => ("content-type", v)).toList ++
  ((headerGet r "content-length").map fun v => ("content-length", v)).toList ++
  ((headerGet r "cache-control").map fun v => ("cache-control", v)).toList ++
  ((headerGet r "etag").map fun v => ("etag", v)).toList ++
  ((headerGet r "last-modified").map fun v => ("last-modified", v)).toList ++
  [("x-content-type-options", "nosniff"),
   ("content-security-policy", "default-src 'none'; img-src data:; style-src 'unsafe-inline'")]

/-- Parse result of `Url::parse` restricted to the fields the pipeline
reads: scheme and host. -/
structure ParsedUrl where
  scheme : String
  host : Option String

/-- Translation of `ProxyClient::check_private_network` (src/proxy.rs):
fail when the URL has no host, when resolution fails, or when any
resolved address is private; `resolved` is the
`tokio::net::lookup_host` outcome. -/
def ProxyClient.check_private_network (url : ParsedUrl)
    (resolved : Except String (List IpAddr)) : Except CamoError Unit :=
  match url.host with
  | none => .error (.InvalidUrl "No host")
  | some _ =>
    match resolved with
    | .error e => .error (.InvalidUrl e)
    | .ok addrs =>
      if addrs.any is_private_ip then .error .PrivateNetworkNotAllowed
      else .ok ()

/-- Translation of `ProxyClient::proxy` (src/proxy.rs). The effectful
steps are passed in as their results: `urlParse` for `Url::parse`,
`resolved` for the `tokio::net::lookup_host` outcome (consulted only when
the guard runs), `fetched` for `client.get(url).send()`. The body stream
is forwarded without inspection: the returned `body` is exactly the
upstream chunk list. -/
def ProxyClient.proxy (cfg : Cli) (urlParse : Except String ParsedUrl)
    (resolved : Except String (List IpAddr))
    (fetched : Except ReqwestError UpstreamResponse) : Except CamoError ProxyResponse :=
  match urlParse with
  | .error e => .error (.InvalidUrl e)
  | .ok url =>
    if url.scheme ≠ "http" ∧ url.scheme ≠ "https" then
      .error (.InvalidUrl "Only http/https schemes allowed")
    else
      match
        (if cfg.block_private then ProxyClient.check_private_network url resolved
         else .ok ()) with
      | .error e => .error e
      | .ok _ =>
        match fetched with
        | .error e => .error (camoErrorFromReqwest e)
        | .ok resp =>
          let content_type := (headerGet resp "content-type").getD ""
          if ¬ ProxyClient.is_allowed_content_type cfg content_type then
            .error (.ContentTypeNotAllowed content_type)
          else
            match declaredContentLength resp with
            | some cl =>
              if cl > cfg.max_size then .error (.ContentTooLarge cl)
              else .ok ⟨buildNativeHeaders resp, resp.bodyChunks⟩
            | none => .ok ⟨buildNativeHeaders resp, resp.bodyChunks⟩

/-- Worker relayed response (src/server/http_client/worker_impl.rs
`WorkerFetchResponse`): fully buffered body plus built headers. -/
structure WorkerFetchResponse where
  body : List Nat
  headers : List (String × String)

/-- Validity test of `http::HeaderValue::from_str`: every byte is either
printable (`32 ≤ b`, `b ≠ 127`) or a tab. -/
def headerValueValid (v : String) : Bool :=
  (utf8Encode v).all fun b => (32 ≤ b ∧ b ≠ 127) ∨ b = 9

/-- Header construction of `WorkerFetchClient::get` (worker_impl.rs lines
101-142): copy content-type, cache-control, etag, last-modified when
present and representable, append the two security headers, then set
content-length from the buffered body's actual length. -/
def buildWorkerHeaders (r : UpstreamResponse) (bodyLen : Nat) : List (String × String) :=
  (((headerGet r "content-type").filter headerValueValid).map
      fun v => ("content-type", v)).toList ++
  (((headerGet r "cache-control").filter headerValueValid).map
      fun v => ("cache-control", v)).toList ++
  (((headerGet r "etag").filter headerValueValid).map fun v => ("etag", v)).toList ++
  (((headerGet r "last-modified").filter headerValueValid).map
      fun v => ("last-modified", v)).toList ++
  [("x-content-type-options", "nosniff"),
   ("content-security-policy", "default-src 'none'; img-src data:; style-src 'unsafe-inline'"),
   ("content-length", toString bodyLen)]

/-- Translation of `WorkerFetchClient::get`
(src/server/http_client/worker_impl.rs). `fetched` is the
`Fetch::Request(..).send()` outcome, `bodyRead` the `response.bytes()`
outcome; on success the whole body is buffered (`bodyChunks.flatten`) and
its actual size checked against the budget after reading. The
`Request::new_with_init` construction step, whose failure yields
`InvalidUrl` before any of the steps below, is left out of the model:
the model starts at the send outcome. -/
def WorkerFetchClient.get (cfg : Config) (fetched : Except String UpstreamResponse)
    (bodyRead : Except String Unit) : Except WCamoError WorkerFetchResponse :=
  match fetched with
  | .error e => .error (.Upstream e)
  | .ok resp =>
    let content_type := (headerGet resp "content-type").getD ""
    if ¬ Config.is_allowed_content_type cfg content_type then
      .error (.ContentTypeNotAllowed content_type)
    else
      match
        (match declaredContentLength resp with
         | some cl => if cl > cfg.max_size then some (WCamoError.ContentTooLarge cl) else none
         | none => none) with
      | some e => .error e
      | none =>
        match bodyRead with
        | .error e => .error (.Upstream e)
        | .ok _ =>
          let body := resp.bodyChunks.flatten
          if body.length > cfg.max_size then .error (.ContentTooLarge body.length)
          else .ok ⟨body, buildWorkerHeaders resp body.length⟩

/-! ## Shared lemmas: UTF-8 round trip -/

theorem char_toNat_ofNat (n : Nat) (h : Nat.isValidChar n) : (Char.ofNat n).toNat = n := by
  unfold Char.ofNat
  rw [dif_pos h]
  exact rfl

theorem utf8Step_encodeChar (c : Nat) (h : Nat.isValidChar c) (rest : List Nat) :
    utf8Step (utf8EncodeChar c ++ rest) = some (c, rest) := by
  have hlt : c < 0x110000 := by rcases h with h | ⟨_, h⟩ <;> omega
  have hns : c < 0xD800 ∨ 0xE000 ≤ c := by rcases h with h | ⟨h, _⟩ <;> omega
  unfold utf8EncodeChar
  by_cases h1 : c < 0x80
  · rw [if_pos h1]
    rw [List.cons_append, List.nil_append, utf8Step.eq_def]
    dsimp only
    rw [if_pos h1]
  · rw [if_neg h1]
    by_cases h2 : c < 0x800
    · rw [if_pos h2]
      have e1 : ¬ (0xC0 + c / 64 < 0x80) := by omega
      have e2 : ¬ (0xC0 + c / 64 < 0xC2) := by omega
      have e3 : 0xC0 + c / 64 < 0xE0 := by omega
      have e4 : 0x80 ≤ 0x80 + c % 64 ∧ 0x80 + c % 64 < 0xC0 := by omega
      simp only [List.cons_append, List.nil_append]
      rw [utf8Step.eq_def]
      dsimp only
      rw [if_neg e1, if_neg e2, if_pos e3, if_pos e4]
      have hc : (0xC0 + c / 64 - 0xC0) * 64 + (0x80 + c % 64 - 0x80) = c := by omega
      rw [hc]
    · rw [if_neg h2]
      by_cases h3 : c < 0x10000
      · rw [if_pos h3]
        have e1 : ¬ (0xE0 + c / 4096 < 0x80) := by omega
        have e2 : ¬ (0xE0 + c / 4096 < 0xC2) := by omega
        have e3 : ¬ (0xE0 + c / 4096 < 0xE0) := by omega
        have e4 : 0xE0 + c / 4096 < 0xF0 := by omega
        have e5 : (if 0xE0 + c / 4096 = 0xE0 then 0xA0 else 0x80) ≤ 0x80 + c / 64 % 64 ∧
            0x80 + c / 64 % 64 < (if 0xE0 + c / 4096 = 0xED then 0xA0 else 0xC0) ∧
            0x80 ≤ 0x80 + c % 64 ∧ 0x80 + c % 64 < 0xC0 := by
          refine ⟨?_, ?_, by omega, by omega⟩ <;> split <;> omega
        simp only [List.cons_append, List.nil_append]
        rw [utf8Step.eq_def]
        dsimp only
        rw [if_neg e1, if_neg e2, if_neg e3, if_pos e4, if_pos e5]
        have hc : (0xE0 + c / 4096 - 0xE0) * 4096 + (0x80 + c / 64 % 64 - 0x80) * 64 +
            (0x80 + c % 64 - 0x80) = c := by omega
        rw [hc]
      · rw [if_neg h3]
        have e1 : ¬ (0xF0 + c / 262144 < 0x80) := by omega
        have e2 : ¬ (0xF0 + c / 262144 < 0xC2) := by omega
        have e3 : ¬ (0xF0 + c / 262144 < 0xE0) := by omega
        have e4 : ¬ (0xF0 + c / 262144 < 0xF0) := by omega
        have e5 : 0xF0 + c / 262144 < 0xF5 := by omega
        have e6 : (if 0xF0 + c / 262144 = 0xF0 then 0x90 else 0x80) ≤ 0x80 + c / 4096 % 64 ∧
            0x80 + c / 4096 % 64 < (if 0xF0 + c / 262144 = 0xF4 then 0x90 else 0xC0) ∧
            0x80 ≤ 0x80 + c / 64 % 64 ∧ 0x80 + c / 64 % 64 < 0xC0 ∧
            0x80 ≤ 0x80 + c % 64 ∧ 0x80 + c % 64 < 0xC0 := by
          refine ⟨?_, ?_, by omega, by omega, by omega, by omega⟩ <;> split <;> omega
        simp only [List.cons_append, List.nil_append]
        rw [utf8Step.eq_def]
        dsimp only
        rw [if_neg e1, if_neg e2, if_neg e3, if_neg e4, if_pos e5, if_pos e6]
        have hc : (0xF0 + c / 262144 - 0xF0) * 262144 + (0x80 + c / 4096 % 64 - 0x80) * 4096 +
            (0x80 + c / 64 % 64 - 0x80) * 64 + (0x80 + c % 64 - 0x80) = c := by omega
        rw [hc]

theorem utf8EncodeChar_ne_nil (c : Nat) : utf8EncodeChar c ≠ [] := by
  unfold utf8EncodeChar
  split_ifs <;> simp

theorem utf8DecodeLoop_flatMap (cs : List Char) :
    ∀ fuel, (cs.flatMap fun c => utf8EncodeChar c.toNat).length ≤ fuel →
      utf8DecodeLoop fuel (cs.flatMap fun c => utf8EncodeChar c.toNat) =
        some (cs.map Char.toNat) := by
  induction cs with
  | nil => intro fuel _; cases fuel <;> rfl
  | cons c cs ih =>
    intro fuel hfuel
    simp only [List.flatMap_cons] at hfuel ⊢
    obtain ⟨b0, bs, hE⟩ : ∃ b0 bs, utf8EncodeChar c.toNat = b0 :: bs := by
      rcases hcs : utf8EncodeChar c.toNat with _ | ⟨b0, bs⟩
      · exact absurd hcs (utf8EncodeChar_ne_nil _)
      · exact ⟨b0, bs, rfl⟩
    have hlen : 1 ≤ fuel := by
      rw [hE] at hfuel
      simp at hfuel
      omega
    obtain ⟨f, rfl⟩ : ∃ f, fuel = f + 1 := ⟨fuel - 1, by omega⟩
    rw [hE, List.cons_append, utf8DecodeLoop]
    rw [← List.cons_append, ← hE, utf8Step_encodeChar c.toNat c.valid]
    have hrest : (cs.flatMap fun c => utf8EncodeChar c.toNat).length ≤ f := by
      rw [hE] at hfuel
      simp at hfuel ⊢
      omega
    dsimp only
    rw [ih f hrest]
    rfl

theorem utf8DecodeCps_utf8Encode (s : String) :
    utf8DecodeCps (utf8Encode s) = some (s.data.map Char.toNat) :=
  utf8DecodeLoop_flatMap s.data _ le_rfl

theorem utf8DecodeString_utf8Encode (s : String) :
    utf8DecodeString (utf8Encode s) = some s := by
  rw [utf8DecodeString, utf8DecodeCps_utf8Encode]
  dsimp only [Option.map]
  rw [List.map_map]
  have hm : s.data.map (Char.ofNat ∘ Char.toNat) = s.data.map id :=
    List.map_congr_left fun c _ => Char.ofNat_toNat c
  rw [hm, List.map_id]

theorem utf8EncodeChar_ascii (b : Nat) (h : b < 0x80) : utf8EncodeChar b = [b] := by
  unfold utf8EncodeChar
  rw [if_pos h]

theorem utf8Encode_mk_map_ofNat (l : List Nat) (h : ∀ b ∈ l, b < 0x80) :
    utf8Encode (String.mk (l.map Char.ofNat)) = l := by
  induction l with
  | nil => rfl
  | cons b rest ih =>
    have hb : b < 0x80 := h b (by simp)
    have hvalid : Nat.isValidChar b := Or.inl (by omega)
    simp only [List.map_cons, utf8Encode, List.flatMap_cons]
    rw [char_toNat_ofNat b hvalid, utf8EncodeChar_ascii b hb]
    have := ih fun x hx => h x (by simp [hx])
    simp only [utf8Encode] at this
    rw [this]
    rfl

theorem utf8EncodeChar_lt_256 (c : Nat) (h : c < 0x110000) :
    ∀ b ∈ utf8EncodeChar c, b < 256 := by
  intro b hb
  unfold utf8EncodeChar at hb
  split_ifs at hb with h1 h2 h3
  · simp only [List.mem_singleton] at hb
    omega
  · simp only [List.mem_cons, List.not_mem_nil, or_false] at hb
    rcases hb with rfl | rfl <;> omega
  · simp only [List.mem_cons, List.not_mem_nil, or_false] at hb
    rcases hb with rfl | rfl | rfl <;> omega
  · simp only [List.mem_cons, List.not_mem_nil, or_false] at hb
    rcases hb with rfl | rfl | rfl | rfl <;> omega

theorem utf8Encode_lt_256 (s : String) : ∀ b ∈ utf8Encode s, b < 256 := by
  intro b hb
  simp only [utf8Encode, List.mem_flatMap] at hb
  obtain ⟨c, _, hb⟩ := hb
  have : c.toNat < 0x110000 := by
    have hv : Nat.isValidChar c.toNat := c.valid
    rcases hv with h | ⟨_, h⟩ <;> omega
  exact utf8EncodeChar_lt_256 _ this b hb

/-! ## Shared lemmas: hex, base64 and percent codecs -/

theorem hexVal_hexDigit (x : Nat) (h : x < 16) : hexVal (hexDigit x) = some x := by
  unfold hexDigit hexVal
  split_ifs <;> simp_all <;> omega

theorem hexDigit_lt (x : Nat) : hexDigit x < 0x80 ∨ ¬ x < 16 := by
  unfold hexDigit
  split_ifs <;> omega

theorem hexEncodeBytes_ascii (l : List Nat) : ∀ b ∈ hexEncodeBytes l, b < 0x80 := by
  induction l with
  | nil => simp [hexEncodeBytes]
  | cons b rest ih =>
    intro x hx
    simp only [hexEncodeBytes, List.mem_cons] at hx
    rcases hx with rfl | rfl | hx
    · rcases hexDigit_lt (b / 16 % 16) with h | h
      · exact h
      · exact absurd (Nat.mod_lt _ (by omega)) h
    · rcases hexDigit_lt (b % 16) with h | h
      · exact h
      · exact absurd (Nat.mod_lt _ (by omega)) h
    · exact ih x hx

theorem hexDecodeBytes_hexEncodeBytes (l : List Nat) (h : ∀ b ∈ l, b < 256) :
    hexDecodeBytes (hexEncodeBytes l) = some l := by
  induction l with
  | nil => rfl
  | cons b rest ih =>
    have hb : b < 256 := h b (by simp)
    rw [hexEncodeBytes, hexDecodeBytes]
    rw [hexVal_hexDigit _ (Nat.mod_lt _ (by omega)), hexVal_hexDigit _ (Nat.mod_lt _ (by omega))]
    dsimp only
    rw [ih fun x hx => h x (by simp [hx])]
    have : b / 16 % 16 * 16 + b % 16 = b := by omega
    rw [this]
    rfl

theorem hexEncodeBytes_length (l : List Nat) : (hexEncodeBytes l).length = 2 * l.length := by
  induction l with
  | nil => rfl
  | cons b rest ih =>
    simp [hexEncodeBytes, ih]
    omega

theorem b64Val_b64Char (i : Nat) (h : i < 64) : b64Val (b64Char i) = some i := by
  unfold b64Char b64Val
  split_ifs <;> simp_all <;> omega

theorem b64Char_lt (i : Nat) : b64Char i < 0x80 := by
  unfold b64Char
  split_ifs <;> omega

theorem b64DecodeBytes_b64EncodeBytes (l : List Nat) (h : ∀ b ∈ l, b < 256) :
    b64DecodeBytes (b64EncodeBytes l) = some l := by
  induction l using b64EncodeBytes.induct with
  | case1 => rfl
  | case2 a =>
    have ha : a < 256 := h a (by simp)
    rw [b64EncodeBytes, b64DecodeBytes]
    rw [b64Val_b64Char _ (by omega), b64Val_b64Char _ (by omega)]
    dsimp only
    rw [if_pos (by omega)]
    have : a / 4 % 64 * 4 + a % 4 * 16 / 16 = a := by omega
    rw [this]
  | case3 a b =>
    have ha : a < 256 := h a (by simp)
    have hb : b < 256 := h b (by simp)
    rw [b64EncodeBytes, b64DecodeBytes]
    rw [b64Val_b64Char _ (by omega), b64Val_b64Char _ (by omega), b64Val_b64Char _ (by omega)]
    dsimp only
    rw [if_pos (by omega)]
    have h1 : a / 4 % 64 * 4 + (a % 4 * 16 + b / 16 % 16) / 16 = a := by omega
    have h2 : (a % 4 * 16 + b / 16 % 16) % 16 * 16 + b % 16 * 4 / 4 = b := by omega
    rw [h1, h2]
  | case4 a b c rest ih =>
    have ha : a < 256 := h a (by simp)
    have hb : b < 256 := h b (by simp)
    have hc : c < 256 := h c (by simp)
    rw [b64EncodeBytes, b64DecodeBytes]
    rw [b64Val_b64Char _ (by omega), b64Val_b64Char _ (by omega), b64Val_b64Char _ (by omega),
      b64Val_b64Char _ (by omega)]
    dsimp only
    rw [ih fun x hx => h x (by simp [hx])]
    have h1 : a / 4 % 64 * 4 + (a % 4 * 16 + b / 16 % 16) / 16 = a := by omega
    have h2 : (a % 4 * 16 + b / 16 % 16) % 16 * 16 + (b % 16 * 4 + c / 64 % 4) / 4 = b := by
      omega
    have h3 : (b % 16 * 4 + c / 64 % 4) % 4 * 64 + c % 64 = c := by omega
    rw [h1, h2, h3]
    rfl

theorem percentDecodeBytes_no37 (l : List Nat) (h : 37 ∉ l) : percentDecodeBytes l = l := by
  induction l using percentDecodeBytes.induct with
  | case1 => rfl
  | case2 h0 h1 rest v0 v1 hv0 hv1 => simp at h
  | case3 h0 h1 rest hmatch => simp at h
  | case4 b rest hne ih =>
    simp only [List.mem_cons, not_or] at h
    rw [percentDecodeBytes]
    · rw [ih h.2]
    · exact hne

theorem b64EncodeBytes_ascii (l : List Nat) : ∀ b ∈ b64EncodeBytes l, b < 0x80 := by
  induction l using b64EncodeBytes.induct with
  | case1 => simp [b64EncodeBytes]
  | case2 a =>
    intro x hx
    simp only [b64EncodeBytes, List.mem_cons, List.not_mem_nil, or_false] at hx
    rcases hx with rfl | rfl <;> exact b64Char_lt _
  | case3 a b =>
    intro x hx
    simp only [b64EncodeBytes, List.mem_cons, List.not_mem_nil, or_false] at hx
    rcases hx with rfl | rfl | rfl <;> exact b64Char_lt _
  | case4 a b c rest ih =>
    intro x hx
    simp only [b64EncodeBytes, List.mem_cons] at hx
    rcases hx with rfl | rfl | rfl | rfl | hx
    · exact b64Char_lt _
    · exact b64Char_lt _
    · exact b64Char_lt _
    · exact b64Char_lt _
    · exact ih x hx

theorem decode_url_encode_url_hex (u : String) : decode_url (encode_url_hex u) = some u := by
  have htok : utf8Encode (encode_url_hex u) = hexEncodeBytes (utf8Encode u) :=
    utf8Encode_mk_map_ofNat _ (hexEncodeBytes_ascii _)
  unfold decode_url
  rw [htok, hexDecodeBytes_hexEncodeBytes _ (utf8Encode_lt_256 u)]
  dsimp only [Option.bind]
  rw [utf8DecodeString_utf8Encode]

theorem decode_url_encode_url_base64 (u : String)
    (hhex : (hexDecodeBytes (b64EncodeBytes (utf8Encode u))).bind utf8DecodeString = none) :
    decode_url (encode_url_base64 u) = some u := by
  have htok : utf8Encode (encode_url_base64 u) = b64EncodeBytes (utf8Encode u) :=
    utf8Encode_mk_map_ofNat _ (b64EncodeBytes_ascii _)
  unfold decode_url
  rw [htok, hhex, b64DecodeBytes_b64EncodeBytes _ (utf8Encode_lt_256 u)]
  dsimp only [Option.bind]
  rw [utf8DecodeString_utf8Encode]

/-! ## Claim C3 -/

/-- C3 counterexample: the claim asserts
`decode(encodeBase64(U)) == U` for every URL string `U`, but for the
absolute URL `"wp:pOt"` (scheme `wp`, path `pOt`) the base64 token is
`"d3A6cE90"`, which is also valid hex denoting the bytes
`D3 A6 CE 90` - valid UTF-8 for `"Ӧΐ"` - so the hex-first trial order
makes `decode` return `"Ӧΐ"` instead of `"wp:pOt"`. -/
theorem C3_counterexample :
    decode_url (encode_url_base64 "wp:pOt") = some "Ӧΐ" ∧
      decode_url (encode_url_base64 "wp:pOt") ≠ some "wp:pOt" := by
  constructor
  · rfl
  · decide

/-- C3 (amended): `decode(encodeHex(U)) == U` holds for every URL string
`U` representable as UTF-8; `decode(encodeBase64(U)) == U` holds exactly
under the proviso that the base64 token is not itself accepted by the
earlier hex attempt (hex decode of the token failing, or its bytes not
being valid UTF-8), since decode tries hex, then URL-safe unpadded
base64, then percent-decoding, in that fixed order. -/
theorem C3_round_trip (u : String) :
    decode_url (encode_url_hex u) = some u ∧
      ((hexDecodeBytes (b64EncodeBytes (utf8Encode u))).bind utf8DecodeString = none →
        decode_url (encode_url_base64 u) = some u) :=
  ⟨decode_url_encode_url_hex u, decode_url_encode_url_base64 u⟩

/-- C3 witness: both round trips at the concrete URL
`"http://example.com/a.png"`, whose base64 token is not valid hex. -/
theorem C3_witness :
    decode_url (encode_url_hex "http://example.com/a.png") =
        some "http://example.com/a.png" ∧
      decode_url (encode_url_base64 "http://example.com/a.png") =
        some "http://example.com/a.png" :=
  ⟨(C3_round_trip "http://example.com/a.png").1,
    (C3_round_trip "http://example.com/a.png").2 (by decide)⟩

/-! ## Claim C9 -/

/-- C9: a token containing no `%` always decodes: if the hex and base64
attempts fail it is accepted verbatim by the percent-decoding fallback
(`urlencoding::decode` returns a `%`-free input unchanged), so
`decode_url` returns `some`; consequently `decode_url` can only fail -
the `InvalidUrlEncoding` outcome - when the token contains `%` and its
percent-decoding yields invalid UTF-8. -/
theorem C9_percent_fallback (t : String) :
    ((utf8Encode t).contains 37 = false → decode_url t ≠ none) ∧
      ((hexDecodeBytes (utf8Encode t)).bind utf8DecodeString = none →
        (b64DecodeBytes (utf8Encode t)).bind utf8DecodeString = none →
        (utf8Encode t).contains 37 = false → decode_url t = some t) ∧
      (decode_url t = none →
        (utf8Encode t).contains 37 = true ∧
          utf8DecodeString (percentDecodeBytes (utf8Encode t)) = none) := by
  refine ⟨?_, ?_, ?_⟩
  · intro hc
    unfold decode_url
    rcases h1 : (hexDecodeBytes (utf8Encode t)).bind utf8DecodeString with _ | s
    · rcases h2 : (b64DecodeBytes (utf8Encode t)).bind utf8DecodeString with _ | s
      · unfold percentDecodeStr
        rw [hc]
        simp
      · simp
    · simp
  · intro h1 h2 hc
    unfold decode_url
    rw [h1, h2]
    unfold percentDecodeStr
    rw [hc]
    simp
  · intro hnone
    unfold decode_url at hnone
    rcases h1 : (hexDecodeBytes (utf8Encode t)).bind utf8DecodeString with _ | s <;>
      rw [h1] at hnone
    · rcases h2 : (b64DecodeBytes (utf8Encode t)).bind utf8DecodeString with _ | s <;>
        rw [h2] at hnone
      · unfold percentDecodeStr at hnone
        rcases hc : (utf8Encode t).contains 37 <;> rw [hc] at hnone
        · simp at hnone
        · exact ⟨rfl, by simpa using hnone⟩
      · simp at hnone
    · simp at hnone

/-- C9 witness: the token `"not-hex-or-b64!!"` (no `%`, not valid hex,
not valid base64) decodes verbatim. -/
theorem C9_witness :
    decode_url "not-hex-or-b64!!" = some "not-hex-or-b64!!" :=
  (C9_percent_fallback "not-hex-or-b64!!").2.1 (by decide) (by decide) (by decide)

/-! ## Shared lemmas: digests -/

theorem constant_time_eq_self (l : List Nat) : constant_time_eq l l = true := by
  unfold constant_time_eq
  rw [if_neg (by simp)]
  have hfold : ∀ r : Nat, (l.zip l).foldl (fun r p => r ||| (p.1 ^^^ p.2)) r = r := by
    induction l with
    | nil => intro r; rfl
    | cons b rest ih =>
      intro r
      simp only [List.zip_cons_cons, List.foldl_cons, Nat.xor_self, Nat.or_zero]
      exact ih r
  rw [hfold]
  rfl

theorem sha1_length (msg : List Nat) : (sha1 msg).length = 20 := by
  unfold sha1
  rcases h : sha1Blocks (0x67452301, 0xEFCDAB89, 0x98BADCFE, 0x10325476, 0xC3D2E1F0)
      (sha1Pad msg) with ⟨h0, h1, h2, h3, h4⟩
  simp [bytesOfWord]

theorem hmacSha1_length (key msg : List Nat) : (hmacSha1 key msg).length = 20 := by
  unfold hmacSha1
  exact sha1_length _

theorem bytesOfWord_lt_256 (w : Nat) : ∀ b ∈ bytesOfWord w, b < 256 := by
  intro b hb
  simp only [bytesOfWord, List.mem_cons, List.not_mem_nil, or_false] at hb
  rcases hb with rfl | rfl | rfl | rfl <;> omega

theorem sha1_lt_256 (msg : List Nat) : ∀ b ∈ sha1 msg, b < 256 := by
  intro b hb
  unfold sha1 at hb
  rcases h : sha1Blocks (0x67452301, 0xEFCDAB89, 0x98BADCFE, 0x10325476, 0xC3D2E1F0)
      (sha1Pad msg) with ⟨h0, h1, h2, h3, h4⟩
  dsimp only at hb
  simp only [List.mem_append] at hb
  rcases hb with ((((hb | hb) | hb) | hb) | hb) <;> exact bytesOfWord_lt_256 _ b hb

theorem hexDigit_range (x : Nat) (h : x < 16) :
    (48 ≤ hexDigit x ∧ hexDigit x ≤ 57) ∨ (97 ≤ hexDigit x ∧ hexDigit x ≤ 102) := by
  unfold hexDigit
  split_ifs <;> omega

theorem hexEncodeBytes_range (l : List Nat) :
    ∀ b ∈ hexEncodeBytes l, (48 ≤ b ∧ b ≤ 57) ∨ (97 ≤ b ∧ b ≤ 102) := by
  induction l with
  | nil => simp [hexEncodeBytes]
  | cons b rest ih =>
    intro x hx
    simp only [hexEncodeBytes, List.mem_cons] at hx
    rcases hx with rfl | rfl | hx
    · exact hexDigit_range _ (Nat.mod_lt _ (by omega))
    · exact hexDigit_range _ (Nat.mod_lt _ (by omega))
    · exact ih x hx

theorem generate_digest_utf8_length (key url : String) :
    (utf8Encode (generate_digest key url)).length = 40 := by
  unfold generate_digest
  rw [utf8Encode_mk_map_ofNat _ (hexEncodeBytes_ascii _)]
  rw [hexEncodeBytes_length, hmacSha1_length]

/-! ## Claim C5 -/

/-- C5: for all non-empty key strings `K` and URL strings `U`,
`verify(K, U, generate(K, U)) = true`: the recomputed digest equals the
candidate byte-for-byte, and the or-accumulated xor comparison of a byte
list with itself is zero. -/
theorem C5_verify_generate (key url : String) (_hkey : key ≠ "") :
    verify_digest key url (generate_digest key url) = true := by
  unfold verify_digest
  exact constant_time_eq_self _

/-- C5 witness: the spec's concrete scenario key and URL. -/
theorem C5_witness :
    ("s3cr3t" : String) ≠ "" ∧
      verify_digest "s3cr3t" "http://example.com/a.png"
        (generate_digest "s3cr3t" "http://example.com/a.png") = true :=
  ⟨by decide, C5_verify_generate "s3cr3t" "http://example.com/a.png" (by decide)⟩

/-! ## Claim C10 -/

/-- C10: `generate_digest` is total by construction for every key string
(the empty string included) and URL string - `Hmac::new_from_slice`
accepts any key length, so the `expect` never fires - and its result is
always exactly 40 lowercase hexadecimal characters (20 HMAC-SHA1 bytes,
hex-encoded); consequently `verify_digest` rejects any candidate whose
byte length differs from 40 through the `constant_time_eq` length
short-circuit. -/
theorem C10_digest_shape (key url digest : String) :
    (generate_digest key url).length = 40 ∧
      (∀ ch ∈ (generate_digest key url).data,
        (48 ≤ ch.toNat ∧ ch.toNat ≤ 57) ∨ (97 ≤ ch.toNat ∧ ch.toNat ≤ 102)) ∧
      ((utf8Encode digest).length ≠ 40 → verify_digest key url digest = false) := by
  refine ⟨?_, ?_, ?_⟩
  · unfold generate_digest
    show ((hexEncodeBytes _).map Char.ofNat).length = 40
    rw [List.length_map, hexEncodeBytes_length, hmacSha1_length]
  · intro ch hch
    unfold generate_digest at hch
    simp only [List.mem_map] at hch
    obtain ⟨b, hb, rfl⟩ := hch
    have hrange := hexEncodeBytes_range _ b hb
    have hvalid : Nat.isValidChar b := Or.inl (by omega)
    rw [char_toNat_ofNat b hvalid]
    exact hrange
  · intro hlen
    unfold verify_digest constant_time_eq
    rw [if_pos]
    rw [generate_digest_utf8_length]
    omega

/-- C10 witness: the one-byte candidate `"x"` is rejected, and the digest
for the empty key and URL still has the 40-character shape. -/
theorem C10_witness :
    (generate_digest "" "").length = 40 ∧
      verify_digest "" "" "x" = false :=
  ⟨(C10_digest_shape "" "" "x").1, (C10_digest_shape "" "" "x").2.2 (by decide)⟩

/-! ## Shared lemmas: content-type policy -/

theorem any_eq_mem (l : List String) (m : String) :
    (l.any fun x => decide (x = m)) = true ↔ m ∈ l := by
  constructor
  · intro h
    obtain ⟨x, hx, he⟩ := List.any_eq_true.mp h
    rw [of_decide_eq_true he] at hx
    exact hx
  · intro h
    exact List.any_eq_true.mpr ⟨m, h, by simp⟩

theorem mem_CLI_IMAGE_iff (x : String) : x ∈ CLI_IMAGE_TYPES ↔ x ∈ IMAGE_TYPES := by
  constructor <;> intro h
  · exact (by decide : ∀ y ∈ CLI_IMAGE_TYPES, y ∈ IMAGE_TYPES) x h
  · exact (by decide : ∀ y ∈ IMAGE_TYPES, y ∈ CLI_IMAGE_TYPES) x h

theorem cli_is_allowed_iff (cfg : Cli) (ct : String) :
    ProxyClient.is_allowed_content_type cfg ct = true ↔
      (mimeOf ct ∈ IMAGE_TYPES ∨ (cfg.allow_video = true ∧ mimeOf ct ∈ VIDEO_TYPES) ∨
        (cfg.allow_audio = true ∧ mimeOf ct ∈ AUDIO_TYPES)) := by
  unfold ProxyClient.is_allowed_content_type Cli.allowed_content_types
  rw [any_eq_mem, List.mem_append, List.mem_append, mem_CLI_IMAGE_iff]
  cases hv : cfg.allow_video <;> cases ha : cfg.allow_audio <;>
    simp [VIDEO_TYPES, AUDIO_TYPES, or_assoc]

theorem config_is_allowed_iff (cfg : Config) (ct : String) :
    Config.is_allowed_content_type cfg ct = true ↔
      (mimeOf ct ∈ IMAGE_TYPES ∨ (cfg.allow_video = true ∧ mimeOf ct ∈ VIDEO_TYPES) ∨
        (cfg.allow_audio = true ∧ mimeOf ct ∈ AUDIO_TYPES)) := by
  unfold Config.is_allowed_content_type Config.allowed_content_types
  rw [any_eq_mem, List.mem_append, List.mem_append]
  cases hv : cfg.allow_video <;> cases ha : cfg.allow_audio <;> simp [or_assoc]

/-! ## Claim C7 -/

/-- C7: both `is_allowed_content_type` implementations lower-case the
declared type, strip everything from the first `;` on, trim, and accept
exactly membership in the active allowed set - the image set always,
video and audio sets only under their flags; in particular
`"image/png; charset=binary"` is evaluated as `"image/png"` and accepted,
while an empty (or absent, since absence is replaced by `""`)
content-type is never allowed under any flag combination. -/
theorem C7_policy (cfg : Cli) (wcfg : Config) (ct : String) :
    (ProxyClient.is_allowed_content_type cfg ct = true ↔
      (mimeOf ct ∈ IMAGE_TYPES ∨ (cfg.allow_video = true ∧ mimeOf ct ∈ VIDEO_TYPES) ∨
        (cfg.allow_audio = true ∧ mimeOf ct ∈ AUDIO_TYPES))) ∧
    (Config.is_allowed_content_type wcfg ct = true ↔
      (mimeOf ct ∈ IMAGE_TYPES ∨ (wcfg.allow_video = true ∧ mimeOf ct ∈ VIDEO_TYPES) ∨
        (wcfg.allow_audio = true ∧ mimeOf ct ∈ AUDIO_TYPES))) ∧
    mimeOf "image/png; charset=binary" = "image/png" ∧
    ProxyClient.is_allowed_content_type cfg "image/png; charset=binary" = true ∧
    Config.is_allowed_content_type wcfg "image/png; charset=binary" = true ∧
    ProxyClient.is_allowed_content_type cfg "" = false ∧
    Config.is_allowed_content_type wcfg "" = false := by
  have hpng : mimeOf "image/png; charset=binary" = "image/png" := by decide
  have hempty : mimeOf "" = "" := by decide
  refine ⟨cli_is_allowed_iff cfg ct, config_is_allowed_iff wcfg ct, hpng, ?_, ?_, ?_, ?_⟩
  · exact (cli_is_allowed_iff cfg _).mpr (Or.inl (by rw [hpng]; decide))
  · exact (config_is_allowed_iff wcfg _).mpr (Or.inl (by rw [hpng]; decide))
  · rcases hb : ProxyClient.is_allowed_content_type cfg "" with _ | _
    · rfl
    · exfalso
      rcases (cli_is_allowed_iff cfg "").mp hb with h1 | ⟨_, h1⟩ | ⟨_, h1⟩ <;>
        rw [hempty] at h1 <;> revert h1 <;> decide
  · rcases hb : Config.is_allowed_content_type wcfg "" with _ | _
    · rfl
    · exfalso
      rcases (config_is_allowed_iff wcfg "").mp hb with h1 | ⟨_, h1⟩ | ⟨_, h1⟩ <;>
        rw [hempty] at h1 <;> revert h1 <;> decide

/-! ## Claim C2 -/

theorem is_private_v4_iff (ip : Ipv4) :
    is_private_ip (.v4 ip) = true ↔
      ((ip.a = 10 ∨ (ip.a = 172 ∧ 16 ≤ ip.b ∧ ip.b ≤ 31) ∨ (ip.a = 192 ∧ ip.b = 168)) ∨
        ip.a = 127 ∨ (ip.a = 169 ∧ ip.b = 254) ∨
        (ip.a = 255 ∧ ip.b = 255 ∧ ip.c = 255 ∧ ip.d = 255) ∨
        ((ip.a = 192 ∧ ip.b = 0 ∧ ip.c = 2) ∨ (ip.a = 198 ∧ ip.b = 51 ∧ ip.c = 100) ∨
          (ip.a = 203 ∧ ip.b = 0 ∧ ip.c = 113)) ∨
        (ip.a = 0 ∧ ip.b = 0 ∧ ip.c = 0 ∧ ip.d = 0) ∨
        (ip.a = 100 ∧ ip.b &&& 192 = 64)) := by
  simp [is_private_ip, ipv4Private, ipv4Docs]

theorem land192 (b : Nat) (h1 : 64 ≤ b) (h2 : b ≤ 127) : b &&& 192 = 64 := by
  interval_cases b <;> rfl

theorem claimPrivate_is_private (addr : IpAddr) (h : claimPrivateRange addr) :
    is_private_ip addr = true := by
  rcases addr with ip | s
  · rw [is_private_v4_iff]
    rcases h with h | h | h | ⟨h1, h2, h3⟩ | h | h | h | h | h | h | h
    · exact Or.inr (Or.inl h)
    · exact Or.inl (Or.inl h)
    · exact Or.inr (Or.inr (Or.inl h))
    · exact Or.inr (Or.inr (Or.inr (Or.inr (Or.inr (Or.inr ⟨h1, land192 _ h2 h3⟩)))))
    · exact Or.inl (Or.inr (Or.inl h))
    · exact Or.inl (Or.inr (Or.inr h))
    · exact Or.inr (Or.inr (Or.inr (Or.inl h)))
    · exact Or.inr (Or.inr (Or.inr (Or.inr (Or.inl (Or.inl h)))))
    · exact Or.inr (Or.inr (Or.inr (Or.inr (Or.inl (Or.inr (Or.inl h))))))
    · exact Or.inr (Or.inr (Or.inr (Or.inr (Or.inl (Or.inr (Or.inr h))))))
    · exact Or.inr (Or.inr (Or.inr (Or.inr (Or.inr (Or.inl h)))))
  · simp only [is_private_ip, decide_eq_true_eq]
    exact h

/-- C2: with the block-private flag on, a request whose target hostname
resolves to at least one address in the ranges the claim lists fails with
`PrivateNetworkNotAllowed` before any outbound connection is attempted -
the outcome is the same for every fetch result, which is never consulted;
with the flag off the resolution outcome is never consulted and the same
request proceeds to the fetch stage. -/
theorem C2_network_guard (cfg : Cli) (url : ParsedUrl) (addrs : List IpAddr) (addr : IpAddr)
    (hscheme : url.scheme = "http" ∨ url.scheme = "https")
    (hhost : url.host.isSome = true) :
    (cfg.block_private = true → addr ∈ addrs → claimPrivateRange addr →
      ∀ fetched : Except ReqwestError UpstreamResponse,
        ProxyClient.proxy cfg (.ok url) (.ok addrs) fetched =
          .error CamoError.PrivateNetworkNotAllowed) ∧
    (cfg.block_private = false →
      ∀ (resolved resolved2 : Except String (List IpAddr))
        (fetched : Except ReqwestError UpstreamResponse),
        ProxyClient.proxy cfg (.ok url) resolved fetched =
          ProxyClient.proxy cfg (.ok url) resolved2 fetched) := by
  have hs : ¬ (url.scheme ≠ "http" ∧ url.scheme ≠ "https") := by
    rintro ⟨h1, h2⟩
    rcases hscheme with h | h <;> simp_all
  constructor
  · intro hflag hmem hrange fetched
    obtain ⟨hst, hh⟩ : ∃ hst, url.host = some hst := by
      rcases hu : url.host with _ | hst
      · rw [hu] at hhost
        simp at hhost
      · exact ⟨hst, rfl⟩
    have hgate : ProxyClient.check_private_network url (.ok addrs) =
        .error .PrivateNetworkNotAllowed := by
      unfold ProxyClient.check_private_network
      rw [hh]
      dsimp only
      rw [if_pos (List.any_eq_true.mpr ⟨addr, hmem, claimPrivate_is_private addr hrange⟩)]
    unfold ProxyClient.proxy
    dsimp only
    rw [if_neg hs, hflag, if_pos rfl, hgate]
  · intro hflag resolved resolved2 fetched
    unfold ProxyClient.proxy
    dsimp only
    rw [hflag]
    simp [hs]

/-- C2 witness: a host resolving to `10.0.0.1` is rejected when the flag
is on, and with the flag off the guard input is irrelevant. -/
theorem C2_witness :
    ProxyClient.proxy ⟨some "k", 5242880, 4, 10, false, false, true, false⟩
        (.ok ⟨"http", some "internal.example"⟩) (.ok [.v4 ⟨10, 0, 0, 1⟩])
        (.ok ⟨[], []⟩) = .error CamoError.PrivateNetworkNotAllowed ∧
      ProxyClient.proxy ⟨some "k", 5242880, 4, 10, false, false, false, false⟩
          (.ok ⟨"http", some "internal.example"⟩) (.error "dns down") (.ok ⟨[], []⟩) =
        ProxyClient.proxy ⟨some "k", 5242880, 4, 10, false, false, false, false⟩
          (.ok ⟨"http", some "internal.example"⟩) (.ok []) (.ok ⟨[], []⟩) :=
  ⟨(C2_network_guard _ ⟨"http", some "internal.example"⟩ _ (.v4 ⟨10, 0, 0, 1⟩)
      (Or.inl rfl) rfl).1 rfl (by simp) (by simp [claimPrivateRange]) _,
    (C2_network_guard _ ⟨"http", some "internal.example"⟩ [] (.v4 ⟨10, 0, 0, 1⟩)
      (Or.inl rfl) rfl).2 rfl _ _ _⟩

/-! ## Claim C4 -/

/-- C4 counterexample: the claim asserts a request exceeding the socket
timeout aborts with the `Timeout` error kind (504). At a concrete request
whose `send()` fails with a timeout reqwest error, the `?` conversion
(`#[from] reqwest::Error`) produces `Upstream`, not `Timeout`, and the
response status is 502, not 504. -/
theorem C4_counterexample :
    ProxyClient.proxy ⟨some "k", 5242880, 4, 10, false, false, false, false⟩
        (.ok ⟨"http", some "example.com"⟩) (.ok []) (.error ⟨true⟩) =
      .error (.Upstream ⟨true⟩) ∧
    (CamoError.Upstream ⟨true⟩ ≠ CamoError.Timeout) ∧
    statusCode (.Upstream ⟨true⟩) = 502 := by
  refine ⟨rfl, by decide, rfl⟩

/-- C4 (amended): a request whose outbound `send()` fails - a socket
timeout included (`e.is_timeout()` true) - surfaces as the `Upstream`
error kind, externally visible as 502, whether the private-network guard
is disabled or ran and passed; the `Timeout` kind with its 504 mapping
exists in the error table but is never constructed by the pipeline, so
no timeout is ever reported as 504. -/
theorem C4_timeout_as_upstream (cfg : Cli) (url : ParsedUrl)
    (resolved : Except String (List IpAddr)) (e : ReqwestError)
    (hscheme : url.scheme = "http" ∨ url.scheme = "https")
    (hgate : cfg.block_private = false ∨
      ProxyClient.check_private_network url resolved = .ok ())
    (_htimeout : e.timedOut = true) :
    ProxyClient.proxy cfg (.ok url) resolved (.error e) = .error (.Upstream e) ∧
      camoErrorFromReqwest e = .Upstream e ∧
      statusCode (.Upstream e) = 502 ∧
      CamoError.Upstream e ≠ CamoError.Timeout ∧
      statusCode .Timeout = 504 := by
  have hs : ¬ (url.scheme ≠ "http" ∧ url.scheme ≠ "https") := by
    rintro ⟨h1, h2⟩
    rcases hscheme with h | h <;> simp_all
  have hg : (if cfg.block_private = true then
      ProxyClient.check_private_network url resolved else Except.ok ()) = Except.ok () := by
    rcases hgate with h | h
    · rw [h]
      simp
    · cases hb : cfg.block_private <;> simp [h]
  refine ⟨?_, rfl, rfl, by simp, rfl⟩
  unfold ProxyClient.proxy
  dsimp only
  rw [if_neg hs, hg]
  rfl

/-- C4 witness: a concrete timed-out fetch under the default
configuration - block-private on, the host resolving to a public
address, so the guard runs and passes. -/
theorem C4_witness :
    ProxyClient.proxy ⟨some "k", 5242880, 4, 10, false, false, true, false⟩
        (.ok ⟨"https", some "slow.example"⟩) (.ok [.v4 ⟨93, 184, 216, 34⟩])
        (.error ⟨true⟩) = .error (.Upstream ⟨true⟩) ∧
      statusCode (.Upstream ⟨true⟩) = 502 :=
  ⟨(C4_timeout_as_upstream ⟨some "k", 5242880, 4, 10, false, false, true, false⟩
      ⟨"https", some "slow.example"⟩ (.ok [.v4 ⟨93, 184, 216, 34⟩]) ⟨true⟩
      (Or.inr rfl) (Or.inr rfl) rfl).1,
    (C4_timeout_as_upstream ⟨some "k", 5242880, 4, 10, false, false, true, false⟩
      ⟨"https", some "slow.example"⟩ (.ok [.v4 ⟨93, 184, 216, 34⟩]) ⟨true⟩
      (Or.inr rfl) (Or.inr rfl) rfl).2.2.1⟩

/-! ## Claim C6 -/

/-- C6: an upstream response whose declared `Content-Length` exceeds the
configured maximum is rejected with `ContentTooLarge` before any body
byte is read: the outcome is identical for every body chunk list (native
path) and for every body chunk list and body-read outcome (worker path).
The content-type policy runs first: when the declared type is not
allowed, the same oversized response fails with `ContentTypeNotAllowed`
instead. -/
theorem C6_declared_length (cfg : Cli) (wcfg : Config) (url : ParsedUrl)
    (resolved : Except String (List IpAddr)) (resp : UpstreamResponse) (cl : Nat)
    (hscheme : url.scheme = "http" ∨ url.scheme = "https")
    (hgate : cfg.block_private = false ∨
      ProxyClient.check_private_network url resolved = .ok ())
    (hcl : declaredContentLength resp = some cl) :
    (ProxyClient.is_allowed_content_type cfg
        ((headerGet resp "content-type").getD "") = true →
      cl > cfg.max_size →
      ∀ chunks2 : List (List Nat),
        ProxyClient.proxy cfg (.ok url) resolved
            (.ok ⟨resp.headers, chunks2⟩) = .error (.ContentTooLarge cl)) ∧
    (ProxyClient.is_allowed_content_type cfg
        ((headerGet resp "content-type").getD "") = false →
      ∀ chunks2 : List (List Nat),
        ProxyClient.proxy cfg (.ok url) resolved (.ok ⟨resp.headers, chunks2⟩) =
          .error (.ContentTypeNotAllowed ((headerGet resp "content-type").getD ""))) ∧
    (Config.is_allowed_content_type wcfg
        ((headerGet resp "content-type").getD "") = true →
      cl > wcfg.max_size →
      ∀ (chunks2 : List (List Nat)) (bodyRead : Except String Unit),
        WorkerFetchClient.get wcfg (.ok ⟨resp.headers, chunks2⟩) bodyRead =
          .error (.ContentTooLarge cl)) := by
  have hs : ¬ (url.scheme ≠ "http" ∧ url.scheme ≠ "https") := by
    rintro ⟨h1, h2⟩
    rcases hscheme with h | h <;> simp_all
  have hg : (if cfg.block_private = true then
      ProxyClient.check_private_network url resolved else Except.ok ()) = Except.ok () := by
    rcases hgate with h | h
    · rw [h]
      simp
    · cases hb : cfg.block_private <;> simp [h]
  have hcl2 : ∀ chunks2 : List (List Nat),
      declaredContentLength ⟨resp.headers, chunks2⟩ = some cl := fun _ => hcl
  refine ⟨?_, ?_, ?_⟩
  · intro hct hbig chunks2
    unfold ProxyClient.proxy
    dsimp only
    rw [if_neg hs, hg]
    dsimp only
    rw [if_neg (by simp [headerGet] at hct ⊢; simp [hct]), hcl2 chunks2]
    dsimp only
    rw [if_pos hbig]
  · intro hct chunks2
    unfold ProxyClient.proxy
    dsimp only
    rw [if_neg hs, hg]
    dsimp only
    rw [if_pos (by simp [headerGet] at hct ⊢; simp [hct])]
    rfl
  · intro hct hbig chunks2 bodyRead
    unfold WorkerFetchClient.get
    dsimp only
    rw [if_neg (by simp [headerGet] at hct ⊢; simp [hct]), hcl2 chunks2]
    dsimp only
    rw [if_pos hbig]

/-- C6 witness: a response declaring `content-length: 100` against a
10-byte budget is rejected with `ContentTooLarge 100` on both paths, for
any body. -/
theorem C6_witness :
    ProxyClient.proxy ⟨some "k", 10, 4, 10, false, false, false, false⟩
        (.ok ⟨"http", some "example.com"⟩) (.ok [])
        (.ok ⟨[("content-type", "image/png"), ("content-length", "100")], [[1, 2, 3]]⟩) =
      .error (.ContentTooLarge 100) ∧
    WorkerFetchClient.get ⟨some "k", 10, 4, 10, false, false, false, false⟩
        (.ok ⟨[("content-type", "image/png"), ("content-length", "100")], [[1, 2, 3]]⟩)
        (.ok ()) = .error (.ContentTooLarge 100) :=
  ⟨(C6_declared_length ⟨some "k", 10, 4, 10, false, false, false, false⟩
      ⟨some "k", 10, 4, 10, false, false, false, false⟩ ⟨"http", some "example.com"⟩
      (.ok []) ⟨[("content-type", "image/png"), ("content-length", "100")], [[1, 2, 3]]⟩
      100 (Or.inl rfl) (Or.inl rfl) (by decide)).1 (by decide) (by decide) [[1, 2, 3]],
    (C6_declared_length ⟨some "k", 10, 4, 10, false, false, false, false⟩
      ⟨some "k", 10, 4, 10, false, false, false, false⟩ ⟨"http", some "example.com"⟩
      (.ok []) ⟨[("content-type", "image/png"), ("content-length", "100")], [[1, 2, 3]]⟩
      100 (Or.inl rfl) (Or.inl rfl) (by decide)).2.2 (by decide) (by decide)
      [[1, 2, 3]] (.ok ())⟩

/-! ## Claim C1 -/

theorem worker_body_bounded (wcfg : Config) (fetched : Except String UpstreamResponse)
    (bodyRead : Except String Unit) (r : WorkerFetchResponse)
    (h : WorkerFetchClient.get wcfg fetched bodyRead = .ok r) :
    r.body.length ≤ wcfg.max_size := by
  rcases fetched with e | resp
  · simp [WorkerFetchClient.get] at h
  · unfold WorkerFetchClient.get at h
    dsimp only at h
    split at h
    · simp at h
    · split at h
      · simp at h
      · rcases bodyRead with e | u
        · simp at h
        · dsimp only at h
          split at h
          · simp at h
          · rename_i hlen
            simp only [Except.ok.injEq] at h
            subst h
            simp only [not_lt] at hlen
            exact hlen

theorem native_body_passthrough (cfg : Cli) (urlParse : Except String ParsedUrl)
    (resolved : Except String (List IpAddr)) (resp : UpstreamResponse) (r : ProxyResponse)
    (h : ProxyClient.proxy cfg urlParse resolved (.ok resp) = .ok r) :
    r.body = resp.bodyChunks := by
  rcases urlParse with e | url
  · simp [ProxyClient.proxy] at h
  · unfold ProxyClient.proxy at h
    dsimp only at h
    split at h
    · simp at h
    · split at h
      · simp at h
      · split at h
        · simp at h
        · split at h
          · split at h
            · simp at h
            · simp only [Except.ok.injEq] at h
              subst h
              rfl
          · simp only [Except.ok.injEq] at h
            subst h
            rfl

/-- C1 counterexample: the claim asserts the forwarded body bytes never
exceed the configured maximum plus one buffer, enforced by a running
count mid-stream. With `max_size = 10`, an allowed content type, no
declared `Content-Length`, and three 40-byte chunks, the native proxy
succeeds and forwards the entire 120-byte stream - more than the budget
plus any single buffer (40) - because `proxy` passes `bytes_stream()`
through without any byte counting. -/
theorem C1_counterexample :
    ProxyClient.proxy ⟨some "k", 10, 4, 10, false, false, false, false⟩
        (.ok ⟨"http", some "example.com"⟩) (.ok [])
        (.ok ⟨[("content-type", "image/png")],
          [List.replicate 40 1, List.replicate 40 2, List.replicate 40 3]⟩) =
      .ok ⟨[("content-type", "image/png"),
            ("x-content-type-options", "nosniff"),
            ("content-security-policy",
              "default-src 'none'; img-src data:; style-src 'unsafe-inline'")],
          [List.replicate 40 1, List.replicate 40 2, List.replicate 40 3]⟩ ∧
    ([List.replicate 40 1, List.replicate 40 2,
      List.replicate 40 3] : List (List Nat)).flatten.length = 120 ∧
    10 + 40 < 120 := by
  refine ⟨rfl, by decide, by decide⟩

/-- C1 (amended): no running byte count exists anywhere. The worker path
buffers the whole body and enforces the budget after reading: a
successful worker response carries at most `max_size` body bytes (with
zero excess, an oversized body being rejected entirely rather than
aborted mid-stream). The native path forwards the upstream stream
unchanged: a successful native response's body is exactly the upstream
chunk list, with no truncation or mid-stream abort, so its size is
unbounded when no declared `Content-Length` triggered the pre-check. -/
theorem C1_size_budget :
    (∀ (wcfg : Config) (fetched : Except String UpstreamResponse)
        (bodyRead : Except String Unit) (r : WorkerFetchResponse),
        WorkerFetchClient.get wcfg fetched bodyRead = .ok r →
          r.body.length ≤ wcfg.max_size) ∧
    (∀ (cfg : Cli) (urlParse : Except String ParsedUrl)
        (resolved : Except String (List IpAddr)) (resp : UpstreamResponse)
        (r : ProxyResponse),
        ProxyClient.proxy cfg urlParse resolved (.ok resp) = .ok r →
          r.body = resp.bodyChunks) :=
  ⟨worker_body_bounded, native_body_passthrough⟩

/-- C1 witness: a 3-byte worker body against a 10-byte budget, and the
native passthrough at a concrete response. -/
theorem C1_witness :
    (⟨[1, 2, 3],
      [("content-type", "image/png"), ("x-content-type-options", "nosniff"),
       ("content-security-policy",
         "default-src 'none'; img-src data:; style-src 'unsafe-inline'"),
       ("content-length", "3")]⟩ : WorkerFetchResponse).body.length ≤ 10 ∧
    (⟨[("content-type", "image/png"), ("x-content-type-options", "nosniff"),
       ("content-security-policy",
         "default-src 'none'; img-src data:; style-src 'unsafe-inline'")],
      [[1, 2, 3]]⟩ : ProxyResponse).body =
      ([[1, 2, 3]] : List (List Nat)) :=
  ⟨C1_size_budget.1 ⟨some "k", 10, 4, 10, false, false, false, false⟩
      (.ok ⟨[("content-type", "image/png")], [[1, 2, 3]]⟩) (.ok ()) _ rfl,
    C1_size_budget.2 ⟨some "k", 10, 4, 10, false, false, false, false⟩
      (.ok ⟨"http", some "example.com"⟩) (.ok [])
      ⟨[("content-type", "image/png")], [[1, 2, 3]]⟩ _ rfl⟩

/-! ## Claim C8 -/

theorem mem_optHeader {o : Option String} {name : String} {p : String × String}
    (h : p ∈ (o.map fun v => (name, v)).toList) : ∃ v, o = some v ∧ p = (name, v) := by
  rcases o with _ | v <;> simp_all

theorem mem_optHeaderF {o : Option String} {name : String} {p : String × String}
    (h : p ∈ ((o.filter headerValueValid).map fun v => (name, v)).toList) :
    ∃ v, o = some v ∧ headerValueValid v = true ∧ p = (name, v) := by
  rcases o with _ | v
  · simp_all
  · simp only [Option.filter] at h
    split at h <;> simp_all

theorem buildNativeHeaders_mem (resp : UpstreamResponse) (p : String × String)
    (h : p ∈ buildNativeHeaders resp) :
    (p.1 ∈ ["content-type", "content-length", "cache-control", "etag", "last-modified"] ∧
      headerGet resp p.1 = some p.2) ∨
    p = ("x-content-type-options", "nosniff") ∨
    p = ("content-security-policy",
      "default-src 'none'; img-src data:; style-src 'unsafe-inline'") := by
  unfold buildNativeHeaders at h
  simp only [List.mem_append, List.mem_cons, List.not_mem_nil, or_false] at h
  rcases h with ((((h | h) | h) | h) | h) | h | h
  · obtain ⟨v, ho, rfl⟩ := mem_optHeader h
    exact Or.inl ⟨by simp, ho⟩
  · obtain ⟨v, ho, rfl⟩ := mem_optHeader h
    exact Or.inl ⟨by simp, ho⟩
  · obtain ⟨v, ho, rfl⟩ := mem_optHeader h
    exact Or.inl ⟨by simp, ho⟩
  · obtain ⟨v, ho, rfl⟩ := mem_optHeader h
    exact Or.inl ⟨by simp, ho⟩
  · obtain ⟨v, ho, rfl⟩ := mem_optHeader h
    exact Or.inl ⟨by simp, ho⟩
  · exact Or.inr (Or.inl h)
  · exact Or.inr (Or.inr h)

theorem buildWorkerHeaders_mem (resp : UpstreamResponse) (w : Nat) (p : String × String)
    (h : p ∈ buildWorkerHeaders resp w) :
    (p.1 ∈ ["content-type", "cache-control", "etag", "last-modified"] ∧
      headerGet resp p.1 = some p.2 ∧ headerValueValid p.2 = true) ∨
    p = ("x-content-type-options", "nosniff") ∨
    p = ("content-security-policy",
      "default-src 'none'; img-src data:; style-src 'unsafe-inline'") ∨
    p = ("content-length", toString w) := by
  unfold buildWorkerHeaders at h
  simp only [List.mem_append, List.mem_cons, List.not_mem_nil, or_false] at h
  rcases h with (((h | h) | h) | h) | h | h | h
  · obtain ⟨v, ho, hv, rfl⟩ := mem_optHeaderF h
    exact Or.inl ⟨by simp, ho, hv⟩
  · obtain ⟨v, ho, hv, rfl⟩ := mem_optHeaderF h
    exact Or.inl ⟨by simp, ho, hv⟩
  · obtain ⟨v, ho, hv, rfl⟩ := mem_optHeaderF h
    exact Or.inl ⟨by simp, ho, hv⟩
  · obtain ⟨v, ho, hv, rfl⟩ := mem_optHeaderF h
    exact Or.inl ⟨by simp, ho, hv⟩
  · exact Or.inr (Or.inl h)
  · exact Or.inr (Or.inr (Or.inl h))
  · exact Or.inr (Or.inr (Or.inr h))

theorem security_mem_native (resp : UpstreamResponse) :
    ("x-content-type-options", "nosniff") ∈ buildNativeHeaders resp ∧
      ("content-security-policy",
        "default-src 'none'; img-src data:; style-src 'unsafe-inline'") ∈
        buildNativeHeaders resp := by
  unfold buildNativeHeaders
  constructor <;> simp

theorem security_mem_worker (resp : UpstreamResponse) (w : Nat) :
    ("x-content-type-options", "nosniff") ∈ buildWorkerHeaders resp w ∧
      ("content-security-policy",
        "default-src 'none'; img-src data:; style-src 'unsafe-inline'") ∈
        buildWorkerHeaders resp w ∧
      ("content-length", toString w) ∈ buildWorkerHeaders resp w := by
  unfold buildWorkerHeaders
  refine ⟨by simp, by simp, by simp⟩

theorem native_headers_eq (cfg : Cli) (urlParse : Except String ParsedUrl)
    (resolved : Except String (List IpAddr)) (resp : UpstreamResponse) (r : ProxyResponse)
    (h : ProxyClient.proxy cfg urlParse resolved (.ok resp) = .ok r) :
    r.headers = buildNativeHeaders resp := by
  rcases urlParse with e | url
  · simp [ProxyClient.proxy] at h
  · unfold ProxyClient.proxy at h
    dsimp only at h
    split at h
    · simp at h
    · split at h
      · simp at h
      · split at h
        · simp at h
        · split at h
          · split at h
            · simp at h
            · simp only [Except.ok.injEq] at h
              subst h
              rfl
          · simp only [Except.ok.injEq] at h
            subst h
            rfl

theorem worker_headers_eq (wcfg : Config) (fetched : Except String UpstreamResponse)
    (bodyRead : Except String Unit) (r : WorkerFetchResponse) (resp : UpstreamResponse)
    (hf : fetched = .ok resp)
    (h : WorkerFetchClient.get wcfg fetched bodyRead = .ok r) :
    r.headers = buildWorkerHeaders resp r.body.length := by
  subst hf
  unfold WorkerFetchClient.get at h
  dsimp only at h
  split at h
  · simp at h
  · split at h
    · simp at h
    · rcases bodyRead with e | u
      · simp at h
      · dsimp only at h
        split at h
        · simp at h
        · simp only [Except.ok.injEq] at h
          subst h
          rfl

/-- C8 counterexample: the claim asserts every successful relayed
response carries only allowlisted headers copied verbatim from upstream
plus exactly the two fixed security headers. For a worker fetch whose
upstream declares no `content-length` at all, the relayed response
carries `content-length: 3` computed from the buffered body - a third
injected header, not a verbatim copy of anything upstream. -/
theorem C8_counterexample :
    WorkerFetchClient.get ⟨some "k", 10, 4, 10, false, false, false, false⟩
        (.ok ⟨[("content-type", "image/png")], [[1, 2, 3]]⟩) (.ok ()) =
      .ok ⟨[1, 2, 3],
        [("content-type", "image/png"), ("x-content-type-options", "nosniff"),
         ("content-security-policy",
           "default-src 'none'; img-src data:; style-src 'unsafe-inline'"),
         ("content-length", "3")]⟩ ∧
    headerGet ⟨[("content-type", "image/png")], [[1, 2, 3]]⟩ "content-length" = none := by
  exact ⟨rfl, rfl⟩

/-- C8 (amended): every successful relayed response carries only headers
that are either allowlist members copied verbatim from upstream or
injected fixed headers, and both security headers are always present;
on the native path the allowlist is exactly content-type, content-length,
cache-control, etag, last-modified and the injected headers are exactly
the two security headers, while on the worker path content-length is not
copied: it is always set from the actual buffered body length (and the
four other allowlisted headers are copied only when their value is a
representable header value). -/
theorem C8_header_allowlist :
    (∀ (cfg : Cli) (urlParse : Except String ParsedUrl)
        (resolved : Except String (List IpAddr)) (resp : UpstreamResponse)
        (r : ProxyResponse),
        ProxyClient.proxy cfg urlParse resolved (.ok resp) = .ok r →
          (∀ p ∈ r.headers,
            (p.1 ∈ ["content-type", "content-length", "cache-control", "etag",
                "last-modified"] ∧ headerGet resp p.1 = some p.2) ∨
              p = ("x-content-type-options", "nosniff") ∨
              p = ("content-security-policy",
                "default-src 'none'; img-src data:; style-src 'unsafe-inline'")) ∧
          ("x-content-type-options", "nosniff") ∈ r.headers ∧
          ("content-security-policy",
            "default-src 'none'; img-src data:; style-src 'unsafe-inline'") ∈ r.headers) ∧
    (∀ (wcfg : Config) (fetched : Except String UpstreamResponse)
        (bodyRead : Except String Unit) (r : WorkerFetchResponse) (resp : UpstreamResponse),
        fetched = .ok resp →
        WorkerFetchClient.get wcfg fetched bodyRead = .ok r →
          (∀ p ∈ r.headers,
            (p.1 ∈ ["content-type", "cache-control", "etag", "last-modified"] ∧
                headerGet resp p.1 = some p.2 ∧ headerValueValid p.2 = true) ∨
              p = ("x-content-type-options", "nosniff") ∨
              p = ("content-security-policy",
                "default-src 'none'; img-src data:; style-src 'unsafe-inline'") ∨
              p = ("content-length", toString r.body.length)) ∧
          ("x-content-type-options", "nosniff") ∈ r.headers ∧
          ("content-security-policy",
            "default-src 'none'; img-src data:; style-src 'unsafe-inline'") ∈ r.headers ∧
          ("content-length", toString r.body.length) ∈ r.headers) := by
  constructor
  · intro cfg urlParse resolved resp r h
    have he := native_headers_eq cfg urlParse resolved resp r h
    rw [he]
    exact ⟨buildNativeHeaders_mem resp, security_mem_native resp⟩
  · intro wcfg fetched bodyRead r resp hf h
    have he := worker_headers_eq wcfg fetched bodyRead r resp hf h
    rw [he]
    exact ⟨buildWorkerHeaders_mem resp _, security_mem_worker resp _⟩

/-- C8 witness: the characterization applied to a concrete successful
native response. -/
theorem C8_witness :
    (∀ p ∈ ([("content-type", "image/png"), ("x-content-type-options", "nosniff"),
        ("content-security-policy",
          "default-src 'none'; img-src data:; style-src 'unsafe-inline'")] :
          List (String × String)),
      (p.1 ∈ ["content-type", "content-length", "cache-control", "etag",
          "last-modified"] ∧
        headerGet ⟨[("content-type", "image/png")], [[1, 2, 3]]⟩ p.1 = some p.2) ∨
        p = ("x-content-type-options", "nosniff") ∨
        p = ("content-security-policy",
          "default-src 'none'; img-src data:; style-src 'unsafe-inline'")) ∧
    ("x-content-type-options", "nosniff") ∈
      ([("content-type", "image/png"), ("x-content-type-options", "nosniff"),
        ("content-security-policy",
          "default-src 'none'; img-src data:; style-src 'unsafe-inline'")] :
        List (String × String)) ∧
    ("content-security-policy",
      "default-src 'none'; img-src data:; style-src 'unsafe-inline'") ∈
      ([("content-type", "image/png"), ("x-content-type-options", "nosniff"),
        ("content-security-policy",
          "default-src 'none'; img-src data:; style-src 'unsafe-inline'")] :
        List (String × String)) :=
  C8_header_allowlist.1 ⟨some "k", 10, 4, 10, false, false, false, false⟩
    (.ok ⟨"http", some "example.com"⟩) (.ok [])
    ⟨[("content-type", "image/png")], [[1, 2, 3]]⟩
    ⟨[("content-type", "image/png"), ("x-content-type-options", "nosniff"),
      ("content-security-policy",
        "default-src 'none'; img-src data:; style-src 'unsafe-inline'")], [[1, 2, 3]]⟩
    rfl

end Camo
